import Mathlib

/-!
Verification of the core logic of `src/mai.py` (NCMaintenance/Minutes):
the minutes renderer `generate_hse_minutes` (with its inner helpers `get`
and `bullets`), the speaker-label detector `detect_speakers`, and the
speaker-rename loop of the "Update Transcript" handler.

Python strings are modelled as `List Char`.  The Python `\s` class,
`str.strip`, `str.lower` are modelled on their ASCII core (the only
characters that the data of the program and the claims exercise).
-/

namespace Minutes

set_option maxRecDepth 16384

/-- ASCII core of the Python whitespace class `\s` / `str.strip`:
space, tab, newline, carriage return, vertical tab, form feed. -/
def pySpaceB (c : Char) : Bool :=
  c = ' ' || c = '\t' || c = '\n' || c = '\x0d' || c = Char.ofNat 11 || c = Char.ofNat 12

/-- Python `str.strip()`: drop whitespace from both ends. -/
def pyStrip (s : List Char) : List Char :=
  ((s.dropWhile pySpaceB).reverse.dropWhile pySpaceB).reverse

/-- Python `str.lower()` (ASCII core). -/
def pyToLower (s : List Char) : List Char :=
  s.map Char.toLower

/-- The single-quote character (39). -/
def squote : Char := Char.ofNat 39

/-- The double-quote character (34). -/
def dquote : Char := Char.ofNat 34

/-- Python values as they occur in a JSON-decoded structured record:
`None`, strings, lists, integers, booleans. -/
inductive PyVal where
  | none : PyVal
  | vstr : List Char → PyVal
  | vlist : List PyVal → PyVal
  | vint : Int → PyVal
  | vbool : Bool → PyVal

/-- Python truthiness of a value (`if val:`). -/
def truthy : PyVal → Bool
  | PyVal.none => false
  | PyVal.vstr s => !s.isEmpty
  | PyVal.vlist xs => !xs.isEmpty
  | PyVal.vint n => n ≠ 0
  | PyVal.vbool b => b

/-- One escaped character of Python `repr` of a string
(ASCII-printable core: escapes backslash, the quote character,
newline, carriage return and tab). -/
def pyReprChar (q c : Char) : List Char :=
  if c = '\\' then ['\\', '\\']
  else if c = q then ['\\', q]
  else if c = '\n' then ['\\', 'n']
  else if c = '\x0d' then ['\\', 'r']
  else if c = '\t' then ['\\', 't']
  else [c]

/-- Python `repr` of a string: single-quoted unless the string contains a
single quote and no double quote (ASCII-printable core). -/
def pyReprStr (s : List Char) : List Char :=
  let q := if s.contains squote && !s.contains dquote then dquote else squote
  q :: (s.map (pyReprChar q)).flatten ++ [q]

mutual

/-- Python `str()` of a value (as used by f-string interpolation and by
`str(val)` in the renderer helpers). -/
def pyStr : PyVal → List Char
  | PyVal.none => "None".data
  | PyVal.vstr s => s
  | PyVal.vlist xs => '[' :: pyReprList xs ++ [']']
  | PyVal.vint n => (toString n).data
  | PyVal.vbool b => if b then "True".data else "False".data

/-- Python `repr()` of a value (list elements are shown with `repr`). -/
def pyRepr : PyVal → List Char
  | PyVal.none => "None".data
  | PyVal.vstr s => pyReprStr s
  | PyVal.vlist xs => '[' :: pyReprList xs ++ [']']
  | PyVal.vint n => (toString n).data
  | PyVal.vbool b => if b then "True".data else "False".data

/-- `", ".join(repr(x) for x in xs)`, the body of the Python list `str`. -/
def pyReprList : List PyVal → List Char
  | [] => []
  | [x] => pyRepr x
  | x :: y :: rest => pyRepr x ++ ", ".data ++ pyReprList (y :: rest)

end

/-- `dict.get(key, default)` on the structured record. -/
def dictGet (structured : List (String × PyVal)) (key : String) (dflt : PyVal) : PyVal :=
  match structured.find? (fun p => p.1 = key) with
  | Option.some p => p.2
  | Option.none => dflt

/-- Source `mai.py:183`:
`def get(val, default="Not stated"): return val if val and str(val).strip().lower() != "not mentioned" else default`. -/
def get (val : PyVal) (dflt : List Char) : PyVal :=
  if truthy val && pyToLower (pyStrip (pyStr val)) ≠ "not mentioned".data
  then val else PyVal.vstr dflt

/-- The comprehension filter of `bullets` (mai.py:186):
`str(item).strip() and str(item).strip().lower() != "not mentioned"`. -/
def keepB (item : PyVal) : Bool :=
  !(pyStrip (pyStr item)).isEmpty &&
  pyToLower (pyStrip (pyStr item)) ≠ "not mentioned".data

/-- Source `mai.py:184`–`188`:
```
def bullets(val):
    if isinstance(val, list) and val:
        items = [item for item in val if str(item).strip() and str(item).strip().lower() != "not mentioned"]
        if items: return "".join([f"• {item}\n" for item in items])
    return "• None recorded\n"
```
-/
def bullets (val : PyVal) : List Char :=
  match val with
  | PyVal.vlist xs =>
      if !xs.isEmpty then
        let items := xs.filter keepB
        if !items.isEmpty then
          (items.map (fun item => "• ".data ++ pyStr item ++ ['\n'])).flatten
        else "• None recorded\n".data
      else "• None recorded\n".data
  | _ => "• None recorded\n".data

/-- Source `mai.py:181`–`240`, `generate_hse_minutes(structured)`.
`now = datetime.now()` is modelled by the two formatted strings the
renderer could draw from it: `nowDate` models `now.strftime("%d/%m/%Y")`
(the only formatting the source performs) and `nowTime` models
`now.strftime("%H:%M")`, which the source never computes. -/
def generate_hse_minutes (structured : List (String × PyVal))
    (nowDate nowTime : List Char) : List Char :=
  "HSE Capital & Estates Meeting Minutes\nMeeting Title: ".data
  ++ pyStr (get (dictGet structured "meetingTitle" PyVal.none) "Meeting".data)
  ++ "\nDate: ".data
  ++ pyStr (get (dictGet structured "meetingDate" PyVal.none) nowDate)
  ++ "\nTime: ".data
  ++ pyStr (get (dictGet structured "startTime" PyVal.none) "00:00".data)
  ++ " - ".data
  ++ pyStr (get (dictGet structured "endTime" PyVal.none) "00:00".data)
  ++ "\nLocation: ".data
  ++ pyStr (get (dictGet structured "location" PyVal.none) "Not stated".data)
  ++ "\nChairperson: ".data
  ++ pyStr (get (dictGet structured "chairperson" PyVal.none) "Not stated".data)
  ++ "\nMinute Taker: ".data
  ++ pyStr (get (dictGet structured "minuteTaker" PyVal.none) "Not stated".data)
  ++ "\n________________________________________\n1. Attendance\nPresent:\n".data
  ++ bullets (dictGet structured "attendees" (PyVal.vlist []))
  ++ "\nApologies:\n".data
  ++ bullets (dictGet structured "apologies" (PyVal.vlist []))
  ++ "\n________________________________________\n2. Minutes of Previous Meeting / Matters Arising\n".data
  ++ bullets (dictGet structured "mattersArising" (PyVal.vlist []))
  ++ "\n________________________________________\n3. Declarations of Interest\n• ".data
  ++ pyStr (get (dictGet structured "declarationsOfInterest" PyVal.none) "None declared.".data)
  ++ "\n________________________________________\n4. Capital Projects Update\n4.1 Major Projects (Capital)\n".data
  ++ bullets (dictGet structured "majorProjects" (PyVal.vlist []))
  ++ "\n4.2 Minor Works / Equipment / ICT\n".data
  ++ bullets (dictGet structured "minorProjects" (PyVal.vlist []))
  ++ "\n________________________________________\n5. Estates Strategy and Planning\n".data
  ++ bullets (dictGet structured "estatesStrategy" (PyVal.vlist []))
  ++ "\n________________________________________\n6. Health & Safety / Regulatory Compliance\n".data
  ++ bullets (dictGet structured "healthSafety" (PyVal.vlist []))
  ++ "\n________________________________________\n7. Risk Register\n".data
  ++ bullets (dictGet structured "riskRegister" (PyVal.vlist []))
  ++ "\n________________________________________\n8. Finance Update\n".data
  ++ bullets (dictGet structured "financeUpdate" (PyVal.vlist []))
  ++ "\n________________________________________\n9. AOB\n".data
  ++ bullets (dictGet structured "aob" (PyVal.vlist []))
  ++ "\n________________________________________\n10. Next Meeting\n• ".data
  ++ pyStr (get (dictGet structured "nextMeetingDate" PyVal.none) "Not stated".data)
  ++ "\n________________________________________\n\n\n\nMinutes Approved By: ____________________ Date: ___________\n".data

/-! ### Speaker detection (`detect_speakers`, mai.py:57–64)

The regex `(?m)^(?:[\*\_]{2})?([A-Za-z0-9\s\(\)\-\.]+?)(?:[\*\_]{2})?[:]`
is embedded by a direct implementation of the backtracking search:
optional greedy two-character marker, lazy one-or-more character-class
group, optional greedy two-character close marker, then a colon, anchored
at line starts; `re.findall` scans left to right for non-overlapping
matches and returns the capture groups. -/

/-- A marker character of `[\*\_]`. -/
def isMark (c : Char) : Bool := c = '*' || c = '_'

/-- The character class `[A-Za-z0-9\s\(\)\-\.]`. -/
def inClass (c : Char) : Bool :=
  c.isAlpha || c.isDigit || pySpaceB c || c = '(' || c = ')' || c = '-' || c = '.'

/-- Match `(?:[\*\_]{2})?[:]` at `s` (greedy optional close marker, then the
colon); return the rest of the string after the colon. -/
def closeColon (s : List Char) : Option (List Char) :=
  match s with
  | a :: b :: ':' :: rest =>
      if isMark a && isMark b then Option.some rest
      else if a = ':' then Option.some (b :: ':' :: rest)
      else Option.none
  | a :: rest => if a = ':' then Option.some rest else Option.none
  | [] => Option.none

/-- Lazy `([A-Za-z0-9\s\(\)\-\.]+?)` followed by `closeColon`: take the
shortest non-empty class run after which the close succeeds.  Returns the
capture and the rest after the whole match. -/
def lazyGroup : List Char → Option (List Char × List Char)
  | [] => Option.none
  | c :: rest =>
      if inClass c then
        match closeColon rest with
        | Option.some r => Option.some ([c], r)
        | Option.none =>
            match lazyGroup rest with
            | Option.some (cap, r) => Option.some (c :: cap, r)
            | Option.none => Option.none
      else Option.none

/-- Attempt the whole pattern at a line-start position: greedy optional
open marker (tried first), then the lazy group and close. -/
def matchAt (s : List Char) : Option (List Char × List Char) :=
  match s with
  | a :: b :: rest =>
      if isMark a && isMark b then
        match lazyGroup rest with
        | Option.some p => Option.some p
        | Option.none => lazyGroup s
      else lazyGroup s
  | _ => lazyGroup s

/-- `re.findall` scan: try the pattern at every line-start position, left
to right, skipping over each match.  Every step consumes at least one
character, so `fuel = s.length` is enough. -/
def findAllAux : Nat → List Char → Bool → List (List Char)
  | _, [], _ => []
  | 0, _, _ => []
  | Nat.succ f, c :: rest, atLS =>
      if atLS then
        match matchAt (c :: rest) with
        | Option.some (cap, r) => cap :: findAllAux f r false
        | Option.none => findAllAux f rest (c = '\n')
      else findAllAux f rest (c = '\n')

/-- All capture groups of the speaker pattern, in match order. -/
def findAll (s : List Char) : List (List Char) := findAllAux s.length s true

/-- Python string `<=` (lexicographic by code point). -/
def lexLe : List Char → List Char → Bool
  | [], _ => true
  | _ :: _, [] => false
  | a :: as, b :: bs =>
      if a.val < b.val then true
      else if b.val < a.val then false
      else lexLe as bs

/-- Insertion step of sorting the label list. -/
def insertLabel (x : List Char) : List (List Char) → List (List Char)
  | [] => [x]
  | y :: ys => if lexLe x y then x :: y :: ys else y :: insertLabel x ys

/-- `sorted(...)` on labels (insertion sort by code-point order). -/
def sortLabels : List (List Char) → List (List Char)
  | [] => []
  | x :: xs => insertLabel x (sortLabels xs)

/-- `set(...)`: keep one copy of each label (the sort makes the choice of
which copy irrelevant). -/
def dedupLabels : List (List Char) → List (List Char)
  | [] => []
  | x :: xs => if xs.contains x then dedupLabels xs else x :: dedupLabels xs

/-- Source `mai.py:57`–`64`:
```
def detect_speakers(text):
    if not text: return []
    pattern = ...
    matches = re.findall(pattern, text)
    return sorted(list(set(matches)))
```
-/
def detect_speakers (text : List Char) : List (List Char) :=
  if text.isEmpty then [] else sortLabels (dedupLabels (findAll text))

/-! ### Speaker renaming (Update Transcript handler, mai.py:514–526) -/

/-- `pat` is a leading piece of `s`. -/
def isPrefB : List Char → List Char → Bool
  | [], _ => true
  | _ :: _, [] => false
  | a :: as, b :: bs => a = b && isPrefB as bs

/-- `pat` occurs somewhere inside `s` (Python `pat in s`). -/
def occursIn (pat : List Char) : List Char → Bool
  | [] => isPrefB pat []
  | c :: rest => isPrefB pat (c :: rest) || occursIn pat rest

/-- Left-to-right non-overlapping literal replacement (the semantics of
`re.sub` on a fully escaped pattern).  An empty pattern never matches
here; the renamer only uses patterns of the form `**old**`. -/
def replaceAllAux (pat rep : List Char) : Nat → List Char → List Char
  | _, [] => []
  | 0, s => s
  | Nat.succ f, c :: rest =>
      if isPrefB pat (c :: rest) && !pat.isEmpty then
        rep ++ replaceAllAux pat rep f (List.drop pat.length (c :: rest))
      else c :: replaceAllAux pat rep f rest

/-- Literal replacement of every occurrence of `pat` by `rep`. -/
def replaceAll (pat rep s : List Char) : List Char := replaceAllAux pat rep s.length s

/-- Source `mai.py:516`–`520`:
`txt = re.sub(rf"\*\*{re.escape(old)}\*\*", f"**{new}**", txt)` —
a literal replacement, since the pattern is fully escaped. -/
def subBold (old new txt : List Char) : List Char :=
  replaceAll ('*' :: '*' :: (old ++ "**".data)) ('*' :: '*' :: (new ++ "**".data)) txt

/-- Match the literal `old` followed by `:` at the head of `s`. -/
def stripColon (old s : List Char) : Option (List Char) :=
  if isPrefB (old ++ [':']) s then Option.some (List.drop (old.length + 1) s)
  else Option.none

/-- Backtracking match of `\s*old:` at the head of `s` with greedy `\s*`:
consume as much whitespace as possible, backing off until `old:` fits. -/
def tryPlainAt (old : List Char) : List Char → Option (List Char)
  | [] => stripColon old []
  | c :: rest =>
      if pySpaceB c then
        match tryPlainAt old rest with
        | Option.some r => Option.some r
        | Option.none => stripColon old (c :: rest)
      else stripColon old (c :: rest)

/-- `re.sub` scan for `(?m)^\s*old:` → `new:`: attempt the anchored match
at every line-start position, left to right, skipping over matches.
Every step consumes at least one character, so `fuel = s.length` works. -/
def subPlainAux (old new : List Char) : Nat → List Char → Bool → List Char
  | _, [], _ => []
  | 0, s, _ => s
  | Nat.succ f, c :: rest, atLS =>
      if atLS then
        match tryPlainAt old (c :: rest) with
        | Option.some r => new ++ ':' :: subPlainAux old new f r false
        | Option.none => c :: subPlainAux old new f rest (c = '\n')
      else c :: subPlainAux old new f rest (c = '\n')

/-- Source `mai.py:521`–`526`:
`txt = re.sub(rf"(?m)^\s*{re.escape(old)}:", f"{new}:", txt)`. -/
def subPlain (old new txt : List Char) : List Char :=
  subPlainAux old new txt.length txt true

/-- One iteration of the rename loop (mai.py:514–526): the bold form is
rewritten first, then the plain line-start form. -/
def renameOne (old new txt : List Char) : List Char :=
  subPlain old new (subBold old new txt)

/-- The whole rename loop.  Python dict iteration order is insertion
order, modelled by the order of the association list. -/
def renameAll (replacements : List (List Char × List Char)) (txt : List Char) : List Char :=
  replacements.foldl (fun t p => renameOne p.1 p.2 t) txt

/-! ### Line conventions of the document-export step (`create_docx`) -/

/-- Helper for splitting on newlines. -/
def pyLinesAux : List Char → List Char → List (List Char)
  | [], acc => [acc.reverse]
  | c :: rest, acc =>
      if c = '\n' then acc.reverse :: pyLinesAux rest [] else pyLinesAux rest (c :: acc)

/-- Python `content.split('\n')` (`mai.py:276`). -/
def pyLines (s : List Char) : List (List Char) := pyLinesAux s []

/-- Source `mai.py:279,287`: after `line = line.strip()`, the export step
treats the line as a visual divider (and skips it) when
`"________" in line and "Approved By" not in line`. -/
def docxIsDividerB (line : List Char) : Bool :=
  occursIn "________".data (pyStrip line) && !occursIn "Approved By".data (pyStrip line)

/-! ### General lemmas about the text model -/

theorem infixAppL {α : Type} {x a : List α} (b : List α) (h : x <:+: a) : x <:+: a ++ b :=
  h.trans (List.prefix_append a b).isInfix

theorem infixAppR {α : Type} {x b : List α} (a : List α) (h : x <:+: b) : x <:+: a ++ b :=
  h.trans (List.suffix_append a b).isInfix

theorem isPrefB_iff (p s : List Char) : isPrefB p s = true ↔ p <+: s := by
  induction p generalizing s with
  | nil => simp [isPrefB]
  | cons a as ih =>
      cases s with
      | nil => simp [isPrefB]
      | cons b bs => simp [isPrefB, ih, List.cons_prefix_cons]

theorem occursIn_iff (p s : List Char) : occursIn p s = true ↔ p <:+: s := by
  induction s with
  | nil => simp [occursIn, isPrefB_iff]
  | cons c rest ih => simp [occursIn, isPrefB_iff, ih, List.infix_cons_iff]

theorem occursIn_false_of_infix {p q s : List Char} (hpq : p <:+: q)
    (h : occursIn p s = false) : occursIn q s = false := by
  cases hq : occursIn q s
  · rfl
  · have hp : occursIn p s = true :=
      (occursIn_iff p s).mpr (hpq.trans ((occursIn_iff q s).mp hq))
    rw [h] at hp
    exact Bool.noConfusion hp

theorem occursIn_cons_false {p : List Char} {c : Char} {rest : List Char}
    (h : occursIn p (c :: rest) = false) :
    isPrefB p (c :: rest) = false ∧ occursIn p rest = false := by
  rw [occursIn, Bool.or_eq_false_iff] at h
  exact h

theorem stripColon_none {old s : List Char} (h : occursIn old s = false) :
    stripColon old s = Option.none := by
  have hp : isPrefB (old ++ [':']) s = false := by
    cases hb : isPrefB (old ++ [':']) s
    · rfl
    · have h1 : old <+: s := (List.prefix_append old [':']).trans ((isPrefB_iff _ _).mp hb)
      have h2 : occursIn old s = true := (occursIn_iff old s).mpr h1.isInfix
      rw [h] at h2
      exact Bool.noConfusion h2
  simp [stripColon, hp]

theorem tryPlainAt_none (old : List Char) :
    ∀ s, occursIn old s = false → tryPlainAt old s = Option.none := by
  intro s
  induction s with
  | nil =>
      intro h
      simpa [tryPlainAt] using stripColon_none h
  | cons c rest ih =>
      intro h
      obtain ⟨h1, h2⟩ := occursIn_cons_false h
      by_cases hc : pySpaceB c = true
      · simp [tryPlainAt, hc, ih h2, stripColon_none h]
      · simp [tryPlainAt, hc, stripColon_none h]

theorem subPlainAux_id (old new : List Char) :
    ∀ (f : Nat) (s : List Char) (atLS : Bool), occursIn old s = false →
      subPlainAux old new f s atLS = s := by
  intro f
  induction f with
  | zero =>
      intro s atLS h
      cases s <;> rfl
  | succ f ih =>
      intro s atLS h
      cases s with
      | nil => rfl
      | cons c rest =>
          obtain ⟨h1, h2⟩ := occursIn_cons_false h
          have ht : tryPlainAt old (c :: rest) = Option.none := tryPlainAt_none old _ h
          cases atLS
          · simp [subPlainAux, ih rest _ h2]
          · simp [subPlainAux, ht, ih rest _ h2]

theorem replaceAllAux_id (pat rep : List Char) :
    ∀ (f : Nat) (s : List Char), occursIn pat s = false → replaceAllAux pat rep f s = s := by
  intro f
  induction f with
  | zero =>
      intro s h
      cases s <;> rfl
  | succ f ih =>
      intro s h
      cases s with
      | nil => rfl
      | cons c rest =>
          obtain ⟨h1, h2⟩ := occursIn_cons_false h
          simp [replaceAllAux, h1, ih rest h2]

theorem renameOne_id {old new txt : List Char} (h : occursIn old txt = false) :
    renameOne old new txt = txt := by
  have hinfix : old <:+: ('*' :: '*' :: (old ++ "**".data)) := ⟨['*', '*'], "**".data, rfl⟩
  have hb : occursIn ('*' :: '*' :: (old ++ "**".data)) txt = false :=
    occursIn_false_of_infix hinfix h
  have h1 : subBold old new txt = txt := by
    rw [subBold, replaceAll]
    exact replaceAllAux_id _ _ _ _ hb
  rw [renameOne, h1, subPlain]
  exact subPlainAux_id _ _ _ _ _ h

/-! ### Claims -/

/-- Claim C1: for every input record — any association of field names to
values of any shape, so that every recognized field may be missing, None,
empty, set to the sentinel, or wrongly typed — and any current date/time,
`generate_hse_minutes` returns a string containing all ten numbered
section headings.  The renderer is a total Lean function over this whole
input space, which is the embedding of never raising an exception. -/
theorem generate_hse_minutes_total_headings
    (structured : List (String × PyVal)) (nowDate nowTime : List Char) :
    "1. Attendance".data <:+: generate_hse_minutes structured nowDate nowTime ∧
    "2. Minutes of Previous Meeting / Matters Arising".data
      <:+: generate_hse_minutes structured nowDate nowTime ∧
    "3. Declarations of Interest".data <:+: generate_hse_minutes structured nowDate nowTime ∧
    "4. Capital Projects Update".data <:+: generate_hse_minutes structured nowDate nowTime ∧
    "5. Estates Strategy and Planning".data
      <:+: generate_hse_minutes structured nowDate nowTime ∧
    "6. Health & Safety / Regulatory Compliance".data
      <:+: generate_hse_minutes structured nowDate nowTime ∧
    "7. Risk Register".data <:+: generate_hse_minutes structured nowDate nowTime ∧
    "8. Finance Update".data <:+: generate_hse_minutes structured nowDate nowTime ∧
    "9. AOB".data <:+: generate_hse_minutes structured nowDate nowTime ∧
    "10. Next Meeting".data <:+: generate_hse_minutes structured nowDate nowTime := by
  refine ⟨?_, ?_, ?_, ?_, ?_, ?_, ?_, ?_, ?_, ?_⟩
  all_goals
    simp only [generate_hse_minutes]
    repeat
      first
        | exact infixAppR _ (by decide)
        | apply infixAppL

/-- Claim C2 (counterexample): the scalar helper `get` substitutes the
default for a value that differs from the sentinel by case and padding
(refuting the case-sensitive exact match), and returns a whitespace-only
string verbatim (refuting the claimed substitution for whitespace-only
values). -/
theorem get_counterexample :
    get (PyVal.vstr " NOT MENTIONED ".data) "dflt".data = PyVal.vstr "dflt".data ∧
    get (PyVal.vstr "   ".data) "dflt".data = PyVal.vstr "   ".data :=
  ⟨rfl, rfl⟩

/-- Claim C2 (amended): `get` returns the raw value verbatim unless the
value is falsy (`None`, or an empty string) or its string form equals the
sentinel case-insensitively after stripping surrounding whitespace, in
which case it returns the default; nonempty whitespace-only strings strip
to the empty string, differ from the sentinel, and are returned
verbatim. -/
theorem get_resolution :
    (∀ d : List Char, get PyVal.none d = PyVal.vstr d) ∧
    (∀ s d : List Char,
      get (PyVal.vstr s) d =
        if s = [] ∨ pyToLower (pyStrip s) = "not mentioned".data
        then PyVal.vstr d else PyVal.vstr s) := by
  refine ⟨fun d => rfl, fun s d => ?_⟩
  by_cases hs : s = []
  · subst hs
    simp [get, truthy, pyStr]
  · by_cases hm : pyToLower (pyStrip s) = "not mentioned".data
    · simp [get, truthy, pyStr, hs, hm]
    · simp [get, truthy, pyStr, hs, hm]

/-- Claim C3 (counterexample): `bullets` does not drop a `None` item —
`str(None)` is the non-blank string `None`, so the example list renders
three bullet lines, not the claimed two. -/
theorem bullets_counterexample :
    bullets (PyVal.vlist [PyVal.vstr "Project A".data, PyVal.vstr "".data,
        PyVal.none, PyVal.vstr "Project B".data])
      = "• Project A\n• None\n• Project B\n".data ∧
    bullets (PyVal.vlist [PyVal.vstr "Project A".data, PyVal.vstr "".data,
        PyVal.none, PyVal.vstr "Project B".data])
      ≠ "• Project A\n• Project B\n".data :=
  ⟨rfl, by decide⟩

/-- Claim C3 (amended): for every non-empty list, `bullets` keeps exactly
the items whose Python string form is non-blank after stripping and is
not the sentinel case-insensitively (so `None` survives, as the string
`None`), renders each survivor in original order as a `• `-prefixed line
ending in a newline, and falls back to the `• None recorded` line when
nothing survives; the example list yields the three bullet lines
`• Project A`, `• None`, `• Project B`. -/
theorem bullets_list_resolution :
    (∀ xs : List PyVal, xs ≠ [] →
      bullets (PyVal.vlist xs) =
        if (xs.filter keepB).isEmpty then "• None recorded\n".data
        else ((xs.filter keepB).map (fun item => "• ".data ++ pyStr item ++ ['\n'])).flatten) ∧
    bullets (PyVal.vlist [PyVal.vstr "Project A".data, PyVal.vstr "".data,
        PyVal.none, PyVal.vstr "Project B".data])
      = "• Project A\n".data ++ "• None\n".data ++ "• Project B\n".data := by
  refine ⟨fun xs hxs => ?_, rfl⟩
  cases xs with
  | nil => exact absurd rfl hxs
  | cons a as =>
      cases h : ((a :: as).filter keepB).isEmpty with
      | false => simp [bullets, h]
      | true => simp [bullets, h]

/-- Claim C3 (witness for the amended claim): the amended equation applied
to the concrete one-element list containing only `None`. -/
theorem bullets_list_resolution_witness :
    bullets (PyVal.vlist [PyVal.none]) =
      if ([PyVal.none].filter keepB).isEmpty then "• None recorded\n".data
      else (([PyVal.none].filter keepB).map
        (fun item => "• ".data ++ pyStr item ++ ['\n'])).flatten :=
  bullets_list_resolution.1 [PyVal.none] (List.cons_ne_nil _ _)

/-- Claim C4 (counterexample): a bare string value for a list field is not
rendered as a single bullet line — `bullets` falls through to the
`• None recorded` line because the value is not a Python list. -/
theorem bullets_string_counterexample :
    bullets (PyVal.vstr "Jane Doe".data) = "• None recorded\n".data ∧
    bullets (PyVal.vstr "Jane Doe".data) ≠ "• Jane Doe\n".data :=
  ⟨rfl, by decide⟩

/-- Claim C4 (amended): every non-list value of a list field — in
particular every bare string, even a non-empty non-whitespace one —
renders as the fallback line `• None recorded`. -/
theorem bullets_string_fallback (s : List Char) :
    bullets (PyVal.vstr s) = "• None recorded\n".data := rfl

/-- Claim C5 (counterexample): detection applies no post-filter — a line
starting with a 35-character run before a colon contributes that run as a
result, and a captured label is returned with its surrounding whitespace
untrimmed. -/
theorem detect_speakers_counterexample :
    detect_speakers (List.replicate 35 'A' ++ ": hi".data) = [List.replicate 35 'A'] ∧
    detect_speakers " Bob: hi".data = [" Bob".data] :=
  ⟨rfl, rfl⟩

/-- Claim C5 (amended): `detect_speakers` returns the raw capture groups,
sorted and deduplicated, with no trimming and no length cut-off: ordinary
labels are returned as captured, a 35-character run before a colon is
returned whole, and leading whitespace inside a capture is kept. -/
theorem detect_speakers_raw_captures :
    detect_speakers "**Dr. Smith**: Good morning.\nSpeaker 2: Thanks.\n".data
      = ["Dr. Smith".data, "Speaker 2".data] ∧
    detect_speakers (List.replicate 35 'A' ++ ": overlong\n".data) = [List.replicate 35 'A'] ∧
    detect_speakers "  Indented Name: hi\n".data = ["  Indented Name".data] :=
  ⟨rfl, rfl, rfl⟩

/-- Claim C6 (counterexample): the rename transform does not preserve all
surrounding text — the `(?m)^\s*old:` substitution deletes the leading
whitespace of an indented label line. -/
theorem rename_counterexample :
    renameAll [("Speaker 1".data, "Dr. Smith".data)] "  Speaker 1: hello".data
      = "Dr. Smith: hello".data ∧
    renameAll [("Speaker 1".data, "Dr. Smith".data)] "  Speaker 1: hello".data
      ≠ "  Dr. Smith: hello".data :=
  ⟨rfl, by decide⟩

/-- Claim C6 (amended): the rename transform rewrites the bold-wrapped
form anywhere and the line-start colon form, deleting any leading
whitespace of a rewritten label line; an occurrence of the old label
inside a sentence (not bold-wrapped and not at line start before a colon)
and all text outside the rewritten matches are preserved exactly. -/
theorem rename_forms :
    renameAll [("Speaker 1".data, "Dr. Smith".data)]
        "**Speaker 1** said:\n  Speaker 1: hello\nHe said Speaker 1 was late.\n".data
      = "**Dr. Smith** said:\nDr. Smith: hello\nHe said Speaker 1 was late.\n".data :=
  rfl

/-- Claim C7 (counterexample): renaming misses the underscore-bold label
form, which detection accepts — after applying the mapping, the detected
set still contains the old label and lacks the new one. -/
theorem rename_detect_counterexample :
    "Speaker 1".data ∈ detect_speakers
        (renameAll [("Speaker 1".data, "Dr. Smith".data)] "__Speaker 1__: Hello.\n".data) ∧
    "Dr. Smith".data ∉ detect_speakers
        (renameAll [("Speaker 1".data, "Dr. Smith".data)] "__Speaker 1__: Hello.\n".data) := by
  decide

/-- Claim C7 (amended): applying a mapping whose old label does not occur
in the transcript is a no-op producing identical text — so a second
application after a complete rename is byte-identical; and on a
transcript whose occurrences are all in the handled starred-bold or plain
line-start forms, the renamed transcript detects the new label and no
longer the old one, and re-applying the mapping is byte-identical. -/
theorem rename_roundtrip :
    (∀ txt old new : List Char, occursIn old txt = false →
        renameAll [(old, new)] txt = txt) ∧
    detect_speakers (renameAll [("Speaker 1".data, "Dr. Smith".data)]
        "**Speaker 1**: Hi.\nSpeaker 1: Yes.\n".data) = ["Dr. Smith".data] ∧
    renameAll [("Speaker 1".data, "Dr. Smith".data)]
        (renameAll [("Speaker 1".data, "Dr. Smith".data)]
          "**Speaker 1**: Hi.\nSpeaker 1: Yes.\n".data)
      = renameAll [("Speaker 1".data, "Dr. Smith".data)]
          "**Speaker 1**: Hi.\nSpeaker 1: Yes.\n".data := by
  refine ⟨fun txt old new h => ?_, rfl, rfl⟩
  show renameOne old new txt = txt
  exact renameOne_id h

/-- Claim C7 (witness for the amended claim): the no-op part applied to a
concrete transcript without the old label. -/
theorem rename_roundtrip_witness :
    renameAll [("Speaker 1".data, "Dr. Smith".data)] "No labels here.\n".data
      = "No labels here.\n".data :=
  rename_roundtrip.1 "No labels here.\n".data "Speaker 1".data "Dr. Smith".data rfl

/-- Claim C8 (counterexample): with the wall clock at 13:45, the rendered
minutes of an empty record never mention 13:45 — the Time line uses the
literal `00:00` defaults, not the current time. -/
theorem time_default_counterexample :
    occursIn "13:45".data (generate_hse_minutes [] "12/10/2026".data "13:45".data) = false ∧
    occursIn "Time: 00:00 - 00:00".data
      (generate_hse_minutes [] "12/10/2026".data "13:45".data) = true :=
  ⟨rfl, rfl⟩

/-- Claim C8 (amended): the rendered output is independent of the current
wall-clock time; for a missing `startTime`/`endTime` the Time line
substitutes the literal `00:00`, while a missing `meetingDate` makes the
Date line show the current date formatted `DD/MM/YYYY`. -/
theorem date_time_defaults :
    (∀ (structured : List (String × PyVal)) (nowDate nowTime nowTime' : List Char),
        generate_hse_minutes structured nowDate nowTime
          = generate_hse_minutes structured nowDate nowTime') ∧
    occursIn "Date: 12/10/2026".data
      (generate_hse_minutes [] "12/10/2026".data "13:46".data) = true ∧
    occursIn "Time: 00:00 - 00:00".data
      (generate_hse_minutes [] "12/10/2026".data "13:46".data) = true :=
  ⟨fun _ _ _ _ => rfl, rfl, rfl⟩

/-- Claim C9 (counterexample): the section dividers of the rendered
minutes are runs of 40 underscores, not 50 — the 40-run is a line of the
output and is what the export step pattern-matches as a divider, while no
50-run line exists. -/
theorem divider_counterexample :
    List.replicate 40 '_' ∈ pyLines (generate_hse_minutes [] "12/10/2026".data "13:45".data) ∧
    docxIsDividerB (List.replicate 40 '_') = true ∧
    List.replicate 50 '_' ∉ pyLines (generate_hse_minutes [] "12/10/2026".data "13:45".data) ∧
    List.replicate 40 '_' ≠ List.replicate 50 '_' := by
  decide

/-- Claim C9 (amended): in the rendered minutes of the empty record, every
line the document-export step pattern-matches as a divider is a run of
exactly 40 underscore characters. -/
theorem divider_lines :
    ∀ line ∈ pyLines (generate_hse_minutes [] "12/10/2026".data "13:45".data),
      docxIsDividerB line = true → line = List.replicate 40 '_' := by
  decide

/-- Claim C9 (witness for the amended claim): the divider predicate holds
of the 40-underscore line of the rendered output, and the amended claim
applies to it. -/
theorem divider_lines_witness :
    List.replicate 40 '_' = List.replicate 40 '_' :=
  divider_lines (List.replicate 40 '_') (by decide) (by decide)

/-- Claim C10: the rename loop applies its entries sequentially over the
whole transcript, so a later entry rewrites text produced by an earlier
one: with entries A→B then B→C, a transcript label A ends as C, while the
reversed entry order leaves it as B. -/
theorem rename_sequential :
    (∀ (p : List Char × List Char) (rest : List (List Char × List Char)) (txt : List Char),
        renameAll (p :: rest) txt = renameAll rest (renameOne p.1 p.2 txt)) ∧
    renameAll [("A".data, "B".data), ("B".data, "C".data)] "A: hi".data = "C: hi".data ∧
    renameAll [("B".data, "C".data), ("A".data, "B".data)] "A: hi".data = "B: hi".data :=
  ⟨fun _ _ _ => rfl, rfl, rfl⟩

end Minutes
